import Mathlib

/-!
# SemiGlobalMatching: the driver (`main.cpp`) and the engine interface (`SemiGlobalMatching.h`)

A shallow embedding of the two source files.

* Machine integers are mathematical integers; conversions between integer types reduce
  modulo the width (`toU32`, `toS32`, `store`).
* The `sint32` product `width * height` is reduced to 32 bits, as the compiled code forms it.
* A run stops with a `Fault` where it cannot go on: an allocation of negative length (it
  throws), a path string built from a null pointer, a floating value converted to an 8-bit
  pixel it does not fit.
* A `float32` value is represented by the rational it denotes, or an infinity, or a NaN.
* Buffers are lists; loop counters and offsets are naturals. In a buffer of `width * height`
  cells every offset `i * width + j` with `i < height` and `j < width` is inside the buffer
  and fits `sint32` when the size does; reads use `getD`, whose default is not reached there.
* `sgm_types.h` and the bodies of the engine are not part of the two files: the sentinel
  `Invalid_Float` and the results of `Initialize` and `Match` are parameters of the driver.
-/

namespace SGM

/-! ## Machine integers -/

/-- Value of an integer after conversion to `uint32`. -/
def toU32 (x : Int) : Int := x % 2 ^ 32

/-- Value of an integer after conversion to `sint32` (two's complement). -/
def toS32 (x : Int) : Int :=
  if x % 2 ^ 32 < 2 ^ 31 then x % 2 ^ 32 else x % 2 ^ 32 - 2 ^ 32

/-- Range of the C type `int` (`sint32`). -/
def inS32 (x : Int) : Prop := -(2 : Int) ^ 31 ≤ x ∧ x < 2 ^ 31

instance (x : Int) : Decidable (inS32 x) := by unfold inS32; infer_instance

/-! ## Storage types declared in `SemiGlobalMatching.h` -/

/-- Element types of the buffers the engine declares. -/
inductive CType where
  | uint8
  | uint16
  | uint32
  | uint64
  | float32
  deriving DecidableEq, Repr

/-- Width in bits of an element type. -/
def CType.bits : CType → Nat
  | .uint8 => 8
  | .uint16 => 16
  | .uint32 => 32
  | .uint64 => 64
  | .float32 => 32

/-- Value kept by an unsigned cell of type `t` when `v` is stored in it. -/
def store (t : CType) (v : Nat) : Nat := v % 2 ^ t.bits

/-- Declaration `uint32* census_left_;`. -/
def census_left_ : CType := .uint32
/-- Declaration `uint32* census_right_;`. -/
def census_right_ : CType := .uint32
/-- Declaration `uint8* cost_init_;`. -/
def cost_init_ : CType := .uint8
/-- Declaration `uint16* cost_aggr_;`. -/
def cost_aggr_ : CType := .uint16
/-- Declaration `uint8* cost_aggr_1_;`. -/
def cost_aggr_1_ : CType := .uint8
/-- Declaration `uint8* cost_aggr_2_;`. -/
def cost_aggr_2_ : CType := .uint8
/-- Declaration `uint8* cost_aggr_3_;`. -/
def cost_aggr_3_ : CType := .uint8
/-- Declaration `uint8* cost_aggr_4_;`. -/
def cost_aggr_4_ : CType := .uint8
/-- Declaration `uint8* cost_aggr_5_;`. -/
def cost_aggr_5_ : CType := .uint8
/-- Declaration `uint8* cost_aggr_6_;`. -/
def cost_aggr_6_ : CType := .uint8
/-- Declaration `uint8* cost_aggr_7_;`. -/
def cost_aggr_7_ : CType := .uint8
/-- Declaration `uint8* cost_aggr_8_;`. -/
def cost_aggr_8_ : CType := .uint8
/-- Declaration `float32* disp_left_;`. -/
def disp_left_ : CType := .float32

/-- Modelled from the spec: the bit count of a census code, "a 9×7 window yields 63 bits"
(one bit per window position); the body of `CensusTransform` is not in the header. -/
def censusWindowBits (w h : Nat) : Nat := w * h

/-- Per-direction costs of one cell, as the eight per-direction volumes hold them:
whatever was written to a cell, it keeps the value reduced to its declared width. -/
def directionCells (x1 x2 x3 x4 x5 x6 x7 x8 : Nat) : List Nat :=
  [store cost_aggr_1_ x1, store cost_aggr_2_ x2, store cost_aggr_3_ x3, store cost_aggr_4_ x4,
   store cost_aggr_5_ x5, store cost_aggr_6_ x6, store cost_aggr_7_ x7, store cost_aggr_8_ x8]

/-- Modelled from the spec: the sum step of the Path Aggregator (the body of `CostAggregation`
is not in the header). The exact sum over the active directions: the four axis directions
in 4-path mode, all eight in 8-path mode. -/
def exactDirectionSum (num_paths : Nat) (cells : List Nat) : Nat :=
  (cells.take num_paths).sum

/-- Modelled from the spec: the sum step of the Path Aggregator, "stored as a widened (16-bit)
accumulator": the value the `cost_aggr_` cell keeps. -/
def aggregatedCell (num_paths : Nat) (cells : List Nat) : Nat :=
  store cost_aggr_ (exactDirectionSum num_paths cells)

/-! ## Options (`SemiGlobalMatching::SGMOption`) -/

/-- Structure `SGMOption`; the `float` field is held as the rational the float denotes. -/
structure SGMOption where
  num_paths : Nat
  min_disparity : Int
  max_disparity : Int
  uniqueness_ratio : ℚ
  p1 : Int
  p2_init : Int
  deriving DecidableEq

/-- The `float` nearest to the literal `0.95`: `15938355 / 2^24`. -/
def float_0_95 : ℚ := 15938355 / 16777216

/-- Constructor `SGMOption()`. -/
def SGMOption.ctor : SGMOption :=
  { num_paths := 8, min_disparity := 0, max_disparity := 640,
    uniqueness_ratio := float_0_95, p1 := 10, p2_init := 150 }

/-- The record `main` fills in (lines 53-59) and passes to `Initialize`. -/
def mainOption : SGMOption :=
  { SGMOption.ctor with
    num_paths := 8, min_disparity := 0, max_disparity := 64,
    uniqueness_ratio := 1, p1 := 10, p2_init := 1500 }

/-- The Configuration invariants as the spec words them: path count in {4, 8},
min below max, uniqueness ratio in (0, 1], P1 positive and P2_init larger. -/
def validConfiguration (o : SGMOption) : Prop :=
  (o.num_paths = 4 ∨ o.num_paths = 8) ∧
  o.min_disparity < o.max_disparity ∧
  0 < o.max_disparity - o.min_disparity ∧
  (0 < o.uniqueness_ratio ∧ o.uniqueness_ratio ≤ 1) ∧
  (0 < o.p1 ∧ o.p1 < o.p2_init)

/-! ## `float32` -/

/-- A `float32` value: the rational a finite value denotes, an infinity, or a NaN.
Every finite binary32 value is a rational, so statements over all `finite q` cover them. -/
inductive float32 where
  | finite (q : ℚ)
  | inf (negative : Bool)
  | nan
  deriving DecidableEq

instance : Inhabited float32 := ⟨float32.finite 0⟩

/-- What the floating-point unit contributes: rounding of an exact result to `float32`,
and the value `lround` gives on an argument that is not finite (unspecified by the library). -/
structure FloatEnv where
  rnd : ℚ → float32
  lround_unspecified : Int

/-- Operator `==` on floats: a NaN equals nothing. -/
def feq : float32 → float32 → Bool
  | .finite a, .finite b => decide (a = b)
  | .inf s, .inf t => decide (s = t)
  | _, _ => false

/-- Unary minus. -/
def fneg : float32 → float32
  | .finite q => .finite (-q)
  | .inf s => .inf (!s)
  | .nan => .nan

/-- Operator `+` on floats. -/
def fadd (fe : FloatEnv) : float32 → float32 → float32
  | .finite a, .finite b => fe.rnd (a + b)
  | .finite _, .inf s => .inf s
  | .inf s, .finite _ => .inf s
  | .inf s, .inf t => if s = t then .inf s else .nan
  | _, _ => .nan

/-- Operator `-` on floats. -/
def fsub (fe : FloatEnv) (a b : float32) : float32 := fadd fe a (fneg b)

/-- Function `abs` on a float. -/
def fabs : float32 → float32
  | .finite q => .finite |q|
  | .inf _ => .inf false
  | .nan => .nan

/-- Operator `>` on floats: false as soon as one side is a NaN. -/
def fgt : float32 → float32 → Bool
  | .finite a, .finite b => decide (b < a)
  | .inf false, .finite _ => true
  | .inf false, .inf true => true
  | .finite _, .inf true => true
  | _, _ => false

/-- Truncation toward zero. -/
def truncQ (q : ℚ) : Int := if 0 ≤ q then ⌊q⌋ else ⌈q⌉

/-- Function `lround`: nearest integer, halfway cases away from zero. -/
def lround (fe : FloatEnv) : float32 → Int
  | .finite q => if 0 ≤ q then ⌊q + 1 / 2⌋ else ⌈q - 1 / 2⌉
  | _ => fe.lround_unspecified

/-- Conversion of an exact floating value to `uchar`: the value truncated toward zero,
undefined (`none`) when that does not fit the 8 bits. -/
def truncToUchar (q : ℚ) : Option Nat :=
  if 0 ≤ truncQ q ∧ truncQ q ≤ 255 then some (truncQ q).toNat else none

/-- Expression `static_cast<uchar>(disp)`. -/
def static_cast_uchar : float32 → Option Nat
  | .finite q => truncToUchar q
  | _ => none

/-! ## The driver: the blocks of `main` -/

/-- The value `main` assigns to a pixel of `disp_mat` (lines 127-133):
`0` for the sentinel, else `2.5 * static_cast<uchar>(disp)` converted to the 8-bit pixel.
The product is formed in `double`, where it is exact. -/
def grayValue (Invalid_Float disp : float32) : Option Nat :=
  if feq disp Invalid_Float then some 0
  else
    match static_cast_uchar disp with
    | none => none
    | some u => truncToUchar ((5 / 2 : ℚ) * (u : ℚ))

/-- The loop of lines 125-135 (and, on `disparity_check`, of lines 136-146). -/
def grayLoop (Invalid_Float : float32) (width height : Nat) (disparity : List float32)
    (data : List Nat) : Option (List Nat) :=
  (List.range height).foldlM (fun data i =>
    (List.range width).foldlM (fun data j =>
      match grayValue Invalid_Float (disparity.getD (i * width + j) default) with
      | none => none
      | some g => some (data.set (i * width + j) g)) data) data

/-- The image reversal of lines 90-96 for one image: `data_row_d[j] = data_row_s[width-1-j]`. -/
def reverseRows (width height : Nat) (data_s data_d : List Nat) : List Nat :=
  (List.range height).foldl (fun data_d i =>
    (List.range width).foldl (fun data_d j =>
      data_d.set (i * width + j) (data_s.getD (i * width + (width - 1 - j)) 0)) data_d) data_d

/-- The buffers the block of lines 83-119 can reach. -/
structure CheckState where
  disparity : List float32
  disparity_check : List float32
  img_left_reversal : List Nat
  img_right_reversal : List Nat

/-- The loop of lines 103-119. Every assignment in its branches is commented out in the source,
so each branch hands the buffers on as they are. -/
def consistencyLoop (fe : FloatEnv) (width height : Nat) (s : CheckState) : CheckState :=
  (List.range height).foldl (fun s i =>
    (List.range width).foldl (fun s j =>
      let disp_lr := s.disparity.getD (i * width + j) default
      let col_r := toS32 (lround fe (fsub fe (fe.rnd (j : ℚ)) disp_lr))
      if 0 ≤ col_r ∧ col_r < (width : Int) then
        let disp_rl :=
          s.disparity_check.getD (i * width + ((width : Int) - 1 - col_r).toNat) default
        if fgt (fabs (fsub fe disp_lr disp_rl)) (.finite 1) then s else s
      else s) s) s

/-- Lines 83-119: allocate `disparity_check` (zero-initialised) and the two reversal images
(`fresh_left`, `fresh_right`: whatever their fresh storage holds), reverse both images,
then run the consistency loop. The re-match of line 101 is commented out. -/
def consistencyBlock (fe : FloatEnv) (width height : Nat) (img_left img_right : List Nat)
    (fresh_left fresh_right : List Nat) (disparity : List float32) : CheckState :=
  let disparity_check := List.replicate (width * height) (float32.finite 0)
  let img_left_reversal := reverseRows width height img_left fresh_left
  let img_right_reversal := reverseRows width height img_right fresh_right
  consistencyLoop fe width height
    { disparity := disparity, disparity_check := disparity_check,
      img_left_reversal := img_left_reversal, img_right_reversal := img_right_reversal }

/-- One line of the point-cloud file: the six values handed to `fprintf_s` (line 160). -/
structure CloudLine where
  u : float32
  v : float32
  disp : float32
  r : Nat
  g : Nat
  b : Nat
  deriving DecidableEq

/-- The loop of lines 156-163, run when the file was opened. -/
def cloudLoop (fe : FloatEnv) (Invalid_Float : float32) (width height : Nat)
    (disparity : List float32) (img_left : List Nat) : List CloudLine :=
  (List.range height).foldl (fun out i =>
    (List.range width).foldl (fun out j =>
      let disp := disparity.getD (i * width + j) default
      if !(feq disp Invalid_Float) then
        out ++ [{ u := fe.rnd (i : ℚ), v := fe.rnd (j : ℚ), disp := disp,
                  r := img_left.getD (i * width + j) 0, g := img_left.getD (i * width + j) 0,
                  b := img_left.getD (i * width + j) 0 }]
      else out) out) []

/-! ## The driver: `main` -/

/-- A `cv::Mat` as `main` uses it: `rows`, `cols`, and `data`, `none` for the null pointer. -/
structure Mat where
  rows : Int
  cols : Int
  data : Option (List Nat)
  deriving DecidableEq

/-- The four messages `main` prints before an early return. -/
inductive Msg where
  | loadFailed
  | sizeMismatch
  | initFailed
  | matchFailed
  deriving DecidableEq

/-- What `main` does to the outside, in order. -/
inductive Event where
  | imread (path : String) (img : Mat)
  | print (msg : Msg)
  | callInitialize (width height : Int) (option : SGMOption) (result : Bool)
  | callMatch (img_left img_right : Option (List Nat)) (disp_left : List float32) (result : Bool)
  | imwrite (path : String) (height width : Int) (data : List Nat)
  | imshow (data : List Nat)
  | waitKey
  | cloudFile (path : String) (lines : List CloudLine)
  | system (cmd : String)
  deriving DecidableEq

/-- A call of `Initialize`. -/
def Event.isInitialize : Event → Bool
  | .callInitialize _ _ _ _ => true
  | _ => false

/-- A call of `Match`. -/
def Event.isMatch : Event → Bool
  | .callMatch _ _ _ _ => true
  | _ => false

/-- An output: the disparity image (`imwrite`) or the point-cloud file. -/
def Event.isOutput : Event → Bool
  | .imwrite _ _ _ _ => true
  | .cloudFile _ _ => true
  | _ => false

/-- Ways a run stops without a return value. -/
inductive Fault where
  | nullString
  | arrayLength
  | pixelConversion
  deriving DecidableEq

/-- How a run of `main` ends. -/
inductive Exit where
  | ret (code : Int)
  | fault (why : Fault)
  deriving DecidableEq

/-- A run of `main`: how it ends and what it did. -/
structure Run where
  exit : Exit
  trace : List Event

/-- Everything `main` takes from outside the two source files. -/
structure Env where
  imread : String → Mat
  Initialize : Int → Int → SGMOption → Bool
  Match : Option (List Nat) → Option (List Nat) → List float32 → Bool × (Nat → float32)
  Invalid_Float : float32
  fe : FloatEnv
  fresh : Nat → Nat → Nat
  fopen_s : String → Bool

/-- Expression `cv::Mat(height, width, CV_8UC1)`: the `n` bytes of the `k`-th matrix `main`
constructs, holding whatever the fresh storage holds. -/
def freshMat (env : Env) (k n : Nat) : List Nat := (List.range n).map (env.fresh k)

/-- Expression `std::string s = argc[i]`: the argument at index `i`; `none` when the vector has
no argument there (`argc[argv]` is the null pointer, from which no string can be built). -/
def argString (argc : List String) (i : Nat) : Option String := argc[i]?

/-- Expression `new float32[width * height]()`: the number of elements, which is the `sint32`
product as the compiled code forms it (reduced to 32 bits); `none` when that value is
negative (the allocation throws). -/
def newArrayLength (width height : Int) : Option Nat :=
  if 0 ≤ toS32 (width * height) then some (toS32 (width * height)).toNat else none

/-- Lines 121-173 of `main`: what follows the consistency block. -/
def mainOutput (env : Env) (argc : List String) (img_left : Mat) (width height : Int) (n : Nat)
    (trace : List Event) (s : CheckState) : Run :=
  match grayLoop env.Invalid_Float width.toNat height.toNat s.disparity (freshMat env 2 n) with
  | none => ⟨.fault .pixelConversion, trace⟩
  | some disp_mat =>
    match grayLoop env.Invalid_Float width.toNat height.toNat s.disparity_check
        (freshMat env 3 n) with
    | none => ⟨.fault .pixelConversion, trace⟩
    | some _disp_mat_r =>
      match argString argc 3 with
      | none => ⟨.fault .nullString, trace⟩
      | some disp_map_path =>
        let trace := trace ++
          [.imwrite disp_map_path height width disp_mat, .imshow disp_mat, .waitKey]
        let trace :=
          if env.fopen_s (disp_map_path ++ ".cloud.txt") then
            trace ++ [.cloudFile (disp_map_path ++ ".cloud.txt")
              (cloudLoop env.fe env.Invalid_Float width.toNat height.toNat s.disparity
                (img_left.data.getD []))]
          else trace
        ⟨.ret 0, trace ++ [.system "pause"]⟩

/-- Function `int main(int argv, char** argc)`: `argv` is the length of the vector `argc`. -/
def main (env : Env) (argc : List String) : Run :=
  let argv : Int := argc.length
  if argv < 3 then ⟨.ret 0, []⟩
  else
    match argString argc 1, argString argc 2 with
    | some path_left, some path_right =>
      let img_left := env.imread path_left
      let img_right := env.imread path_right
      let trace := [Event.imread path_left img_left, Event.imread path_right img_right]
      if img_left.data = none ∨ img_right.data = none then
        ⟨.ret (-1), trace ++ [.print .loadFailed]⟩
      else if img_left.rows ≠ img_right.rows ∨ img_left.cols ≠ img_right.cols then
        ⟨.ret (-1), trace ++ [.print .sizeMismatch]⟩
      else
        let width := toS32 (toU32 img_left.cols)
        let height := toS32 (toU32 img_right.rows)
        let sgm_option := mainOption
        let initialized := env.Initialize width height sgm_option
        let trace := trace ++ [.callInitialize width height sgm_option initialized]
        if !initialized then ⟨.ret (-2), trace ++ [.print .initFailed]⟩
        else
          match newArrayLength width height with
          | none => ⟨.fault .arrayLength, trace⟩
          | some n =>
            let disparity := List.replicate n (float32.finite 0)
            let matched := env.Match img_left.data img_right.data disparity
            let trace := trace ++ [.callMatch img_left.data img_right.data disparity matched.1]
            if !matched.1 then ⟨.ret (-2), trace ++ [.print .matchFailed]⟩
            else
              let disparity := (List.range n).map matched.2
              let s := consistencyBlock env.fe width.toNat height.toNat
                (img_left.data.getD []) (img_right.data.getD [])
                (freshMat env 0 n) (freshMat env 1 n) disparity
              mainOutput env argc img_left width height n trace s
    | _, _ => ⟨.fault .nullString, []⟩

/-! ## The engine: `Initialize` and `Match` (bodies not in the header) -/

/-- Class `SemiGlobalMatching`: the members the public contract speaks of. -/
structure SemiGlobalMatching where
  option_ : SGMOption
  width_ : Int
  height_ : Int
  is_initialized_ : Bool

/-- Modelled from the spec: the constructor `SemiGlobalMatching()`, whose body is not in the
header: an engine on which `Initialize` has not succeeded is "not ready". -/
def SemiGlobalMatching.ctor : SemiGlobalMatching :=
  { option_ := SGMOption.ctor, width_ := 0, height_ := 0, is_initialized_ := false }

/-- Modelled from the spec: `Initialize`, whose body is not in the header: "validates width>0,
height>0, and a coherent configuration (disparity range > 0, path count ∈ {4,8}); allocates
all volumes ...; fails if any allocation cannot be satisfied or validation fails, leaving the
engine in a not-ready state". Argument `allocated` tells whether every allocation succeeded. -/
def SemiGlobalMatching.Initialize (e : SemiGlobalMatching) (allocated : Bool)
    (width height : Int) (option : SGMOption) : Bool × SemiGlobalMatching :=
  if 0 < width ∧ 0 < height ∧ 0 < option.max_disparity - option.min_disparity ∧
      (option.num_paths = 4 ∨ option.num_paths = 8) ∧ allocated = true then
    (true, { e with option_ := option, width_ := width, height_ := height,
                    is_initialized_ := true })
  else
    (false, { e with is_initialized_ := false })

/-- Modelled from the spec: `Match`, whose body is not in the header: "requires a prior
successful Initialize; requires non-null image buffers ...; runs the four stages in order;
writes into outDisparity ...; returns failure if not initialized, leaving caller-provided
output untouched". Argument `stages` stands for the four stages: the disparity of each pixel. -/
def SemiGlobalMatching.Match (e : SemiGlobalMatching)
    (stages : List Nat → List Nat → Nat → float32)
    (img_left img_right : Option (List Nat)) (disp_left : List float32) :
    Bool × List float32 :=
  if !e.is_initialized_ then (false, disp_left)
  else
    match img_left, img_right with
    | some l, some r => (true, (List.range disp_left.length).map (stages l r))
    | _, _ => (false, disp_left)

/-- An engine on which `Initialize` has not returned true: freshly constructed, or left by a
failed `Initialize`. -/
inductive SemiGlobalMatching.NotReady : SemiGlobalMatching → Prop where
  | fresh : SemiGlobalMatching.NotReady SemiGlobalMatching.ctor
  | failed (e : SemiGlobalMatching) (allocated : Bool) (width height : Int)
      (option : SGMOption) :
      (e.Initialize allocated width height option).1 = false →
      SemiGlobalMatching.NotReady (e.Initialize allocated width height option).2

/-! ## Vocabulary of the statements -/

/-- The gray value as the claim words it: `floor(2.5 * floor(d))`. -/
def specGray (d : ℚ) : Int := ⌊(5 / 2 : ℚ) * (⌊d⌋ : ℚ)⌋

/-- Cells `k < m` hold the gray value of their pixel, the others what `data0` held. -/
def GrayWritten (inv : float32) (disparity : List float32) (data0 : List Nat) (m : Nat)
    (data : List Nat) : Prop :=
  data.length = data0.length ∧
  ∀ k, (k < m → grayValue inv (disparity.getD k default) = some (data.getD k 0)) ∧
       (m ≤ k → data.getD k 0 = data0.getD k 0)

/-- The pixels in row-major order: row `i` outer, column `j` inner. -/
def rowMajor (width height : Nat) : List (Nat × Nat) :=
  (List.range height).flatMap (fun i => (List.range width).map (fun j => (i, j)))

/-- The line of pixel `(i, j)` as the claim words it, `none` for a sentinel pixel. -/
def cloudLineOf (fe : FloatEnv) (Invalid_Float : float32) (width : Nat)
    (disparity : List float32) (img_left : List Nat) (p : Nat × Nat) : Option CloudLine :=
  if feq (disparity.getD (p.1 * width + p.2) default) Invalid_Float then none
  else some { u := fe.rnd (p.1 : ℚ), v := fe.rnd (p.2 : ℚ),
              disp := disparity.getD (p.1 * width + p.2) default,
              r := img_left.getD (p.1 * width + p.2) 0,
              g := img_left.getD (p.1 * width + p.2) 0,
              b := img_left.getD (p.1 * width + p.2) 0 }

/-- The events `main` adds after a successful `Match`, when it runs to the end. -/
def outputEvents (env : Env) (img_left : Mat) (width height : Int) (s : CheckState)
    (disp_map_path : String) (disp_mat : List Nat) : List Event :=
  [.imwrite disp_map_path height width disp_mat, .imshow disp_mat, .waitKey] ++
  (if env.fopen_s (disp_map_path ++ ".cloud.txt") then
    [.cloudFile (disp_map_path ++ ".cloud.txt")
      (cloudLoop env.fe env.Invalid_Float width.toNat height.toNat s.disparity
        (img_left.data.getD []))]
   else []) ++ [.system "pause"]

/-- The two `imread` events that open every run past the argument guard. -/
def loadTrace (env : Env) (pl pr : String) : List Event :=
  [.imread pl (env.imread pl), .imread pr (env.imread pr)]

/-- The buffer `new float32[width * height]()` hands to `Match`. -/
def zeroBuffer (n : Nat) : List float32 := List.replicate n (float32.finite 0)

/-- The state after the consistency block of a run whose `Match` succeeded. -/
def checkedState (env : Env) (pl pr : String) (width height : Int) (n : Nat) : CheckState :=
  consistencyBlock env.fe width.toNat height.toNat
    ((env.imread pl).data.getD []) ((env.imread pr).data.getD [])
    (freshMat env 0 n) (freshMat env 1 n)
    ((List.range n).map (env.Match (env.imread pl).data (env.imread pr).data (zeroBuffer n)).2)

/-- A disparity the configured range allows: the sentinel, or a finite value in `[0, 64)`
(`min_disparity = 0`, `max_disparity = 64`). -/
def InRange (Invalid_Float : float32) (d : float32) : Prop :=
  feq d Invalid_Float = true ∨ ∃ q : ℚ, d = float32.finite q ∧ 0 ≤ q ∧ q < 64

/-- A 1x1 image with gray value 5. -/
def demoMat : Mat := { rows := 1, cols := 1, data := some [5] }

/-- A 65536x65536 image: `2^32` pixels, each dimension well inside `sint32`. -/
def hugeMat : Mat :=
  { rows := 65536, cols := 65536, data := some (List.replicate (65536 * 65536) 0) }

/-- An image that failed to load. -/
def emptyMat : Mat := { rows := 0, cols := 0, data := none }

/-- A floating-point unit for examples: results that need no rounding. -/
def demoFe : FloatEnv := { rnd := fun q => float32.finite q, lround_unspecified := 0 }

/-- An environment for examples: `imread` yields `img` for every path, `Initialize` and
`Match` answer `initialized` and `matched`, `Match` writes disparity 1 everywhere, and the
sentinel is plus infinity. -/
def demoEnv (img : Mat) (initialized matched : Bool) : Env :=
  { imread := fun _ => img
    Initialize := fun _ _ _ => initialized
    Match := fun _ _ _ => (matched, fun _ => float32.finite 1)
    Invalid_Float := float32.inf false
    fe := demoFe
    fresh := fun _ _ => 0
    fopen_s := fun _ => true }

/-! # Theorems -/

/-! ## Helper lemmas -/

theorem foldl_const_of_step {α β : Type} (f : β → α → β) (hf : ∀ s x, f s x = s)
    (l : List α) (s : β) : l.foldl f s = s := by
  induction l generalizing s with
  | nil => rfl
  | cons x xs ih => rw [List.foldl_cons, hf, ih]

theorem consistencyLoop_id (fe : FloatEnv) (width height : Nat) (s : CheckState) :
    consistencyLoop fe width height s = s := by
  unfold consistencyLoop
  apply foldl_const_of_step
  intro s i
  apply foldl_const_of_step
  intro s j
  simp only [ite_self]

theorem store_lt (t : CType) (v : Nat) : store t v < 2 ^ t.bits :=
  Nat.mod_lt _ (Nat.pos_pow_of_pos _ (by decide))

theorem SemiGlobalMatching.NotReady.flag {e : SemiGlobalMatching} (h : e.NotReady) :
    e.is_initialized_ = false := by
  cases h with
  | fresh => rfl
  | failed e allocated width height option hf =>
    unfold SemiGlobalMatching.Initialize at hf ⊢
    split
    · rename_i hc; simp [hc] at hf
    · rfl

/-! ## Options and storage widths -/

/-- C4: the default-constructed `SGMOption` (8, 0, 640, the float nearest 0.95, 10, 150) and
the record `main` passes to `Initialize` (8, 0, 64, 1.0, 10, 1500) both satisfy the
Configuration invariants: path count in {4, 8}, min below max disparity (range positive),
uniqueness ratio in (0, 1], and 0 < p1 < p2_init. -/
theorem options_are_valid_configurations :
    SGMOption.ctor = ⟨8, 0, 640, float_0_95, 10, 150⟩ ∧
    |float_0_95 - 95 / 100| ≤ 1 / 2 ^ 25 ∧
    mainOption = ⟨8, 0, 64, 1, 10, 1500⟩ ∧
    validConfiguration SGMOption.ctor ∧ validConfiguration mainOption := by
  refine ⟨rfl, ?_, rfl, ?_, ?_⟩
  · rw [abs_le]; constructor <;> norm_num [float_0_95]
  · simp only [validConfiguration, SGMOption.ctor, float_0_95]; norm_num
  · simp only [validConfiguration, SGMOption.ctor, mainOption]; norm_num

/-- C5: with the declared widths (per-direction cells 8-bit, aggregated cell 16-bit), for every
content of the eight per-direction cells and for 4 or 8 active directions, the exact sum is at
most 8 * 255 = 2040 < 2^16, and the 16-bit cell keeps exactly that sum. -/
theorem aggregated_cost_cannot_overflow (x1 x2 x3 x4 x5 x6 x7 x8 num_paths : Nat)
    (hp : num_paths = 4 ∨ num_paths = 8) :
    exactDirectionSum num_paths (directionCells x1 x2 x3 x4 x5 x6 x7 x8) ≤ 8 * 255 ∧
    8 * 255 = 2040 ∧ 2040 < 2 ^ cost_aggr_.bits ∧ cost_aggr_.bits = 16 ∧
    aggregatedCell num_paths (directionCells x1 x2 x3 x4 x5 x6 x7 x8) =
      exactDirectionSum num_paths (directionCells x1 x2 x3 x4 x5 x6 x7 x8) := by
  have h1 := store_lt cost_aggr_1_ x1
  have h2 := store_lt cost_aggr_2_ x2
  have h3 := store_lt cost_aggr_3_ x3
  have h4 := store_lt cost_aggr_4_ x4
  have h5 := store_lt cost_aggr_5_ x5
  have h6 := store_lt cost_aggr_6_ x6
  have h7 := store_lt cost_aggr_7_ x7
  have h8 := store_lt cost_aggr_8_ x8
  simp only [cost_aggr_1_, cost_aggr_2_, cost_aggr_3_, cost_aggr_4_, cost_aggr_5_, cost_aggr_6_,
    cost_aggr_7_, cost_aggr_8_, CType.bits] at h1 h2 h3 h4 h5 h6 h7 h8
  have hb : cost_aggr_.bits = 16 := rfl
  refine ⟨?_, by norm_num, by rw [hb]; norm_num, hb, ?_⟩
  · rcases hp with rfl | rfl <;>
      simp only [exactDirectionSum, directionCells, List.take, List.sum_cons, List.sum_nil,
        cost_aggr_1_, cost_aggr_2_, cost_aggr_3_, cost_aggr_4_, cost_aggr_5_, cost_aggr_6_,
        cost_aggr_7_, cost_aggr_8_] <;>
      omega
  · unfold aggregatedCell store
    rw [hb]
    apply Nat.mod_eq_of_lt
    rcases hp with rfl | rfl <;>
      simp only [exactDirectionSum, directionCells, List.take, List.sum_cons, List.sum_nil,
        cost_aggr_1_, cost_aggr_2_, cost_aggr_3_, cost_aggr_4_, cost_aggr_5_, cost_aggr_6_,
        cost_aggr_7_, cost_aggr_8_] <;>
      omega

/-- Witness of C5: eight saturated cells in 8-path mode sum to 2040. -/
theorem aggregated_cost_cannot_overflow_witness :
    exactDirectionSum 8 (directionCells 255 255 255 255 255 255 255 255) ≤ 8 * 255 ∧
    8 * 255 = 2040 ∧ 2040 < 2 ^ cost_aggr_.bits ∧ cost_aggr_.bits = 16 ∧
    aggregatedCell 8 (directionCells 255 255 255 255 255 255 255 255) =
      exactDirectionSum 8 (directionCells 255 255 255 255 255 255 255 255) :=
  aggregated_cost_cannot_overflow 255 255 255 255 255 255 255 255 8 (Or.inr rfl)

/-- C6 as stated fails: the census word is not a 64-bit word, and a 63-bit census code of a
9x7 window does not survive being stored in it. -/
theorem census_word_is_not_64_bit :
    ¬ (cost_init_.bits = 8 ∧ cost_aggr_.bits = 16 ∧
       census_left_.bits = 64 ∧ census_right_.bits = 64 ∧
       ∀ code : Nat, code < 2 ^ censusWindowBits 9 7 →
         store census_left_ code = code ∧ store census_right_ code = code) := by
  intro h
  have h64 : census_left_.bits = 64 := h.2.2.1
  have h32 : census_left_.bits = 32 := rfl
  omega

/-- C6 amended: initial cost cells are 8-bit, aggregated cost cells are 16-bit, and the census
code word of each image (same type for left and right) is a 32-bit word: it keeps every code
of at most 32 bits untruncated, which is fewer than the 63 comparison bits of a 9x7 window. -/
theorem storage_widths (code : Nat) (hcode : code < 2 ^ 32) :
    cost_init_.bits = 8 ∧ cost_aggr_.bits = 16 ∧
    census_left_.bits = 32 ∧ census_right_ = census_left_ ∧
    store census_left_ code = code ∧ store census_right_ code = code ∧
    censusWindowBits 9 7 = 63 ∧ census_left_.bits < censusWindowBits 9 7 ∧
    store census_left_ (2 ^ 63 - 1) ≠ 2 ^ 63 - 1 := by
  refine ⟨rfl, rfl, rfl, rfl, ?_, ?_, by decide, by decide, by decide⟩
  · exact Nat.mod_eq_of_lt hcode
  · exact Nat.mod_eq_of_lt hcode

/-- Witness of C6 amended: the 24-bit code `2^24 - 1` is kept as it is. -/
theorem storage_widths_witness :
    (2 ^ 24 - 1 < 2 ^ 32) ∧ store census_left_ (2 ^ 24 - 1) = 2 ^ 24 - 1 :=
  ⟨by decide, (storage_widths (2 ^ 24 - 1) (by decide)).2.2.2.2.1⟩

/-! ## The engine contract -/

/-- C8: on every engine on which `Initialize` has not returned true (freshly constructed, or
left by a failed `Initialize`), `Match` returns false and leaves every element of the caller's
`disp_left` buffer as it was. -/
theorem match_fails_when_not_ready (e : SemiGlobalMatching) (hr : e.NotReady)
    (stages : List Nat → List Nat → Nat → float32)
    (img_left img_right : Option (List Nat)) (disp_left : List float32) :
    e.Match stages img_left img_right disp_left = (false, disp_left) := by
  unfold SemiGlobalMatching.Match
  rw [hr.flag]
  rfl

/-- Witness of C8: a fresh engine, and an engine left by an `Initialize` with width 0. -/
theorem match_fails_when_not_ready_witness :
    SemiGlobalMatching.ctor.Match (fun _ _ _ => float32.nan) (some [1]) (some [2])
        [float32.finite 7] = (false, [float32.finite 7]) ∧
    (SemiGlobalMatching.ctor.Initialize true 0 5 mainOption).2.Match (fun _ _ _ => float32.nan)
        (some [1]) (some [2]) [float32.finite 7] = (false, [float32.finite 7]) :=
  ⟨match_fails_when_not_ready _ SemiGlobalMatching.NotReady.fresh _ _ _ _,
   match_fails_when_not_ready _
     (SemiGlobalMatching.NotReady.failed _ _ _ _ _ (by decide)) _ _ _ _⟩

/-! ## The consistency block -/

theorem specGray_eq_div (d : ℚ) : specGray d = 5 * ⌊d⌋ / 2 := by
  unfold specGray
  have h : (5 / 2 : ℚ) * (⌊d⌋ : ℚ) = ((5 * ⌊d⌋ : ℤ) : ℚ) / ((2 : ℕ) : ℚ) := by
    push_cast; ring
  rw [h, Rat.floor_intCast_div_natCast]
  rfl

theorem floor_bounds {d : ℚ} (h0 : 0 ≤ d) (h64 : d < 64) : 0 ≤ ⌊d⌋ ∧ ⌊d⌋ ≤ 63 := by
  have h1 : 0 ≤ ⌊d⌋ := Int.floor_nonneg.mpr h0
  have h2 : ⌊d⌋ < 64 := Int.floor_lt.mpr (by exact_mod_cast h64)
  omega

theorem specGray_bounds {d : ℚ} (h0 : 0 ≤ d) (h64 : d < 64) :
    0 ≤ specGray d ∧ specGray d ≤ 157 := by
  have hb := floor_bounds h0 h64
  rw [specGray_eq_div]
  omega

theorem specGray_mono {d₁ d₂ : ℚ} (h : d₁ ≤ d₂) : specGray d₁ ≤ specGray d₂ := by
  have hf : ⌊d₁⌋ ≤ ⌊d₂⌋ := Int.floor_mono h
  rw [specGray_eq_div, specGray_eq_div]
  omega

theorem truncToUchar_of_range {q : ℚ} (h0 : 0 ≤ q) (h : ⌊q⌋ ≤ 255) :
    truncToUchar q = some ⌊q⌋.toNat := by
  have hf : 0 ≤ ⌊q⌋ := Int.floor_nonneg.mpr h0
  simp [truncToUchar, truncQ, h0, hf, h]

theorem grayValue_finite (inv : float32) {d : ℚ} (h0 : 0 ≤ d) (h64 : d < 64)
    (hv : feq (.finite d) inv = false) :
    grayValue inv (.finite d) = some (specGray d).toNat := by
  have hb := floor_bounds h0 h64
  have hg := specGray_bounds h0 h64
  have hu : static_cast_uchar (.finite d) = some ⌊d⌋.toNat := by
    unfold static_cast_uchar
    exact truncToUchar_of_range h0 (by omega)
  have hcast : ((⌊d⌋.toNat : ℕ) : ℚ) = ((⌊d⌋ : ℤ) : ℚ) := by
    have : ((⌊d⌋.toNat : ℕ) : ℤ) = ⌊d⌋ := Int.toNat_of_nonneg hb.1
    exact_mod_cast congrArg (fun z : ℤ => (z : ℚ)) this
  unfold grayValue
  rw [hv, hu]
  simp only [Bool.false_eq_true, if_false]
  rw [hcast]
  have hnn : (0 : ℚ) ≤ (5 / 2 : ℚ) * (⌊d⌋ : ℚ) := by
    have : (0 : ℚ) ≤ (⌊d⌋ : ℚ) := by exact_mod_cast hb.1
    positivity
  rw [truncToUchar_of_range hnn (by change specGray d ≤ 255; omega)]
  rfl

theorem grayValue_sentinel (inv disp : float32) (h : feq disp inv = true) :
    grayValue inv disp = some 0 := by
  unfold grayValue
  rw [h]; rfl


theorem foldlM_range_invariant {σ : Type} (f : σ → Nat → Option σ) (P : Nat → σ → Prop)
    (n : Nat) (s0 : σ) (h0 : P 0 s0)
    (hstep : ∀ i, i < n → ∀ s, P i s → ∃ s', f s i = some s' ∧ P (i + 1) s') :
    ∃ s, (List.range n).foldlM f s0 = some s ∧ P n s := by
  induction n with
  | zero => exact ⟨s0, rfl, h0⟩
  | succ n ih =>
    obtain ⟨s, hs, hP⟩ := ih (fun i hi s hs => hstep i (Nat.lt_succ_of_lt hi) s hs)
    obtain ⟨s', hs', hP'⟩ := hstep n (Nat.lt_succ_self n) s hP
    refine ⟨s', ?_, hP'⟩
    rw [List.range_succ, List.foldlM_append, hs]
    simp [hs']

theorem getD_set_self {α : Type} (l : List α) (k : Nat) (x d : α) (h : k < l.length) :
    (l.set k x).getD k d = x := by
  rw [List.getD_eq_getElem?_getD, List.getElem?_set_self h]; rfl

theorem getD_set_ne {α : Type} (l : List α) (k k' : Nat) (x d : α) (h : k ≠ k') :
    (l.set k x).getD k' d = l.getD k' d := by
  rw [List.getD_eq_getElem?_getD, List.getElem?_set_ne h, ← List.getD_eq_getElem?_getD]

theorem grayLoop_total (inv : float32) (width height : Nat) (disparity : List float32)
    (data0 : List Nat) (hlen : width * height ≤ data0.length)
    (hall : ∀ k, k < width * height → (grayValue inv (disparity.getD k default)).isSome) :
    ∃ mat, grayLoop inv width height disparity data0 = some mat ∧ mat.length = data0.length ∧
      ∀ k, k < width * height →
        grayValue inv (disparity.getD k default) = some (mat.getD k 0) := by
  have hmain : ∃ mat, grayLoop inv width height disparity data0 = some mat ∧
      GrayWritten inv disparity data0 (height * width) mat := by
    unfold grayLoop
    apply foldlM_range_invariant _ (fun i data => GrayWritten inv disparity data0 (i * width) data)
    · refine ⟨rfl, fun k => ⟨fun hk => ?_, fun _ => rfl⟩⟩
      simp at hk
    · intro i hi data hdata
      have hrow : ∃ s, (List.range width).foldlM (fun data j =>
            match grayValue inv (disparity.getD (i * width + j) default) with
            | none => none
            | some g => some (data.set (i * width + j) g)) data = some s ∧
          GrayWritten inv disparity data0 (i * width + width) s := by
        apply foldlM_range_invariant _
          (fun j data => GrayWritten inv disparity data0 (i * width + j) data)
        · simpa using hdata
        · intro j hj d hd
          have hk : i * width + j < width * height := by
            calc i * width + j < i * width + width := by omega
              _ = (i + 1) * width := by ring
              _ ≤ height * width := Nat.mul_le_mul_right _ hi
              _ = width * height := Nat.mul_comm _ _
          obtain ⟨g, hg⟩ := Option.isSome_iff_exists.mp (hall _ hk)
          refine ⟨d.set (i * width + j) g, by rw [hg], ?_,
            fun k => ⟨fun hlt => ?_, fun hle => ?_⟩⟩
          · rw [List.length_set]; exact hd.1
          · by_cases hkk : k = i * width + j
            · subst hkk
              rw [hg, getD_set_self _ _ _ _ (by rw [hd.1]; omega)]
            · rw [getD_set_ne _ _ _ _ _ (Ne.symm hkk)]
              exact (hd.2 k).1 (by omega)
          · rw [getD_set_ne _ _ _ _ _ (by omega)]
            exact (hd.2 k).2 (by omega)
      obtain ⟨s, hs, hP⟩ := hrow
      refine ⟨s, hs, ?_⟩
      have : (i + 1) * width = i * width + width := by ring
      rw [this]; exact hP
  obtain ⟨mat, hmat, hw⟩ := hmain
  exact ⟨mat, hmat, hw.1, fun k hk => (hw.2 k).1 (by rw [Nat.mul_comm]; exact hk)⟩


/-! ## Point-cloud export: the loop -/

theorem foldl_append_filterMap {α β : Type} (c : α → Bool) (mk : α → β) (l : List α)
    (out : List β) :
    l.foldl (fun out x => if c x then out ++ [mk x] else out) out =
      out ++ l.filterMap (fun x => if c x then some (mk x) else none) := by
  induction l generalizing out with
  | nil => simp
  | cons x xs ih =>
    rw [List.foldl_cons, ih]
    by_cases hc : c x <;> simp [hc, List.filterMap_cons]

theorem foldl_append_flatMap {α β : Type} (row : α → List β) (l : List α) (out : List β) :
    l.foldl (fun out x => out ++ row x) out = out ++ l.flatMap row := by
  induction l generalizing out with
  | nil => simp
  | cons x xs ih => rw [List.foldl_cons, ih]; simp [List.append_assoc]

theorem cloudLoop_eq (fe : FloatEnv) (inv : float32) (width height : Nat)
    (disparity : List float32) (img_left : List Nat) :
    cloudLoop fe inv width height disparity img_left =
      (rowMajor width height).filterMap (cloudLineOf fe inv width disparity img_left) := by
  unfold cloudLoop rowMajor
  have hrow : ∀ (i : Nat) (out : List CloudLine),
      (List.range width).foldl (fun out j =>
        let disp := disparity.getD (i * width + j) default
        if !(feq disp inv) then
          out ++ [{ u := fe.rnd (i : ℚ), v := fe.rnd (j : ℚ), disp := disp,
                    r := img_left.getD (i * width + j) 0, g := img_left.getD (i * width + j) 0,
                    b := img_left.getD (i * width + j) 0 }]
        else out) out =
      out ++ ((List.range width).map (fun j => (i, j))).filterMap
        (cloudLineOf fe inv width disparity img_left) := by
    intro i out
    have h := foldl_append_filterMap
      (fun j => !(feq (disparity.getD (i * width + j) default) inv))
      (fun j => ({ u := fe.rnd (i : ℚ), v := fe.rnd (j : ℚ),
                   disp := disparity.getD (i * width + j) default,
                   r := img_left.getD (i * width + j) 0, g := img_left.getD (i * width + j) 0,
                   b := img_left.getD (i * width + j) 0 } : CloudLine))
      (List.range width) out
    simp only at h ⊢
    rw [h, List.filterMap_map]
    congr 1
    apply List.filterMap_congr
    intro j _
    simp only [Function.comp, cloudLineOf]
    cases hf : feq (disparity.getD (i * width + j) default) inv <;> simp
  simp only [hrow]
  rw [foldl_append_flatMap, List.nil_append, List.filterMap_flatMap]

theorem range_map_getD {α : Type} (l : List α) (d : α) :
    (List.range l.length).map (fun k => l.getD k d) = l := by
  apply List.ext_getElem
  · simp
  · intro n h1 h2
    simp [List.getD_eq_getElem?_getD, List.getElem?_eq_getElem h2]

theorem rowMajor_index (width height : Nat) :
    (rowMajor width height).map (fun p => p.1 * width + p.2) = List.range (height * width) := by
  unfold rowMajor
  induction height with
  | zero => simp
  | succ n ih =>
    rw [List.range_succ, List.flatMap_append, List.map_append, ih]
    have : (n + 1) * width = n * width + width := by ring
    rw [this, List.range_add]
    simp [List.flatMap_singleton, Function.comp]

theorem rowMajor_disparity (width height : Nat) (disparity : List float32)
    (hlen : disparity.length = width * height) :
    (rowMajor width height).map (fun p => disparity.getD (p.1 * width + p.2) default)
      = disparity := by
  have h : (rowMajor width height).map (fun p => disparity.getD (p.1 * width + p.2) default) =
      ((rowMajor width height).map (fun p => p.1 * width + p.2)).map
        (fun k => disparity.getD k default) := by
    rw [List.map_map]; rfl
  rw [h, rowMajor_index, Nat.mul_comm, ← hlen, range_map_getD]

theorem cloudLoop_length (fe : FloatEnv) (inv : float32) (width height : Nat)
    (disparity : List float32) (img_left : List Nat)
    (hlen : disparity.length = width * height) :
    (cloudLoop fe inv width height disparity img_left).length =
      (disparity.filter (fun d => !(feq d inv))).length := by
  rw [cloudLoop_eq]
  have h1 : ((rowMajor width height).filterMap
        (cloudLineOf fe inv width disparity img_left)).map CloudLine.disp =
      ((rowMajor width height).map
        (fun p => disparity.getD (p.1 * width + p.2) default)).filter (fun d => !(feq d inv)) := by
    rw [List.map_filterMap, List.filter_map, ← List.filterMap_eq_map, List.filterMap_filter]
    apply List.filterMap_congr
    intro p _
    simp only [cloudLineOf, Function.comp]
    cases hf : feq (disparity.getD (p.1 * width + p.2) default) inv <;> simp
  rw [rowMajor_disparity width height disparity hlen] at h1
  rw [← h1, List.length_map]


/-! ## The control flow of `main` -/

theorem toS32_toU32 {x : Int} (h : inS32 x) : toS32 (toU32 x) = x := by
  simp only [toS32, toU32, inS32] at *
  omega

theorem toS32_of_inS32 {x : Int} (h : inS32 x) : toS32 x = x := by
  simp only [toS32, inS32] at *
  omega

theorem newArrayLength_some {w h : Int} {n : Nat} (hn : newArrayLength w h = some n) :
    (n : Int) = toS32 (w * h) := by
  unfold newArrayLength at hn
  split at hn
  · rename_i hc
    simp only [Option.some.injEq] at hn
    subst hn
    exact Int.toNat_of_nonneg hc
  · simp at hn

theorem argString_of_length {argc : List String} (h : ¬ ((argc.length : Int) < 3)) :
    ∃ pl pr, argString argc 1 = some pl ∧ argString argc 2 = some pr := by
  have h3 : 3 ≤ argc.length := by omega
  match argc, h3 with
  | _ :: pl :: pr :: _, _ => exact ⟨pl, pr, by simp [argString], by simp [argString]⟩

theorem mainOutput_cases (env : Env) (argc : List String) (img_left : Mat) (width height : Int)
    (n : Nat) (trace : List Event) (s : CheckState) :
    (mainOutput env argc img_left width height n trace s = ⟨.fault .pixelConversion, trace⟩ ∧
      (grayLoop env.Invalid_Float width.toNat height.toNat s.disparity (freshMat env 2 n) = none ∨
       grayLoop env.Invalid_Float width.toNat height.toNat s.disparity_check (freshMat env 3 n)
        = none)) ∨
    (mainOutput env argc img_left width height n trace s = ⟨.fault .nullString, trace⟩ ∧
      argString argc 3 = none) ∨
    (∃ disp_map_path disp_mat, argString argc 3 = some disp_map_path ∧
      grayLoop env.Invalid_Float width.toNat height.toNat s.disparity (freshMat env 2 n)
        = some disp_mat ∧
      mainOutput env argc img_left width height n trace s =
        ⟨.ret 0, trace ++ outputEvents env img_left width height s disp_map_path disp_mat⟩) := by
  unfold mainOutput
  cases h1 : grayLoop env.Invalid_Float width.toNat height.toNat s.disparity
      (freshMat env 2 n) with
  | none => left; exact ⟨rfl, Or.inl rfl⟩
  | some disp_mat =>
    cases h2 : grayLoop env.Invalid_Float width.toNat height.toNat s.disparity_check
        (freshMat env 3 n) with
    | none => left; exact ⟨rfl, Or.inr rfl⟩
    | some disp_mat_r =>
      cases h3 : argString argc 3 with
      | none => right; left; exact ⟨rfl, rfl⟩
      | some path =>
        right; right
        refine ⟨path, disp_mat, rfl, rfl, ?_⟩
        simp only [outputEvents]
        split <;> simp


theorem main_cases (env : Env) (argc : List String) :
    ((argc.length : Int) < 3 ∧ main env argc = ⟨.ret 0, []⟩) ∨
    ∃ pl pr, argString argc 1 = some pl ∧ argString argc 2 = some pr ∧
      ((((env.imread pl).data = none ∨ (env.imread pr).data = none) ∧
          main env argc = ⟨.ret (-1), loadTrace env pl pr ++ [.print .loadFailed]⟩) ∨
       ((env.imread pl).data ≠ none ∧ (env.imread pr).data ≠ none ∧
        ((((env.imread pl).rows ≠ (env.imread pr).rows ∨
            (env.imread pl).cols ≠ (env.imread pr).cols) ∧
          main env argc = ⟨.ret (-1), loadTrace env pl pr ++ [.print .sizeMismatch]⟩) ∨
         ((env.imread pl).rows = (env.imread pr).rows ∧
          (env.imread pl).cols = (env.imread pr).cols ∧
          ∃ w h, w = toS32 (toU32 (env.imread pl).cols) ∧
            h = toS32 (toU32 (env.imread pr).rows) ∧
            ((env.Initialize w h mainOption = false ∧
              main env argc = ⟨.ret (-2), loadTrace env pl pr ++
                [.callInitialize w h mainOption false, .print .initFailed]⟩) ∨
             (env.Initialize w h mainOption = true ∧
              ((newArrayLength w h = none ∧
                main env argc = ⟨.fault .arrayLength, loadTrace env pl pr ++
                  [.callInitialize w h mainOption true]⟩) ∨
               ∃ n, newArrayLength w h = some n ∧
                (((env.Match (env.imread pl).data (env.imread pr).data (zeroBuffer n)).1 = false ∧
                  main env argc = ⟨.ret (-2), loadTrace env pl pr ++
                    [.callInitialize w h mainOption true,
                     .callMatch (env.imread pl).data (env.imread pr).data (zeroBuffer n) false,
                     .print .matchFailed]⟩) ∨
                 ((env.Match (env.imread pl).data (env.imread pr).data (zeroBuffer n)).1 = true ∧
                  main env argc = mainOutput env argc (env.imread pl) w h n
                    (loadTrace env pl pr ++
                      [.callInitialize w h mainOption true,
                       .callMatch (env.imread pl).data (env.imread pr).data (zeroBuffer n) true])
                    (checkedState env pl pr w h n)))))))))) := by
  by_cases hlen : (argc.length : Int) < 3
  · left
    exact ⟨hlen, by simp [main, hlen]⟩
  right
  obtain ⟨pl, pr, hpl, hpr⟩ := argString_of_length hlen
  refine ⟨pl, pr, hpl, hpr, ?_⟩
  by_cases hdata : (env.imread pl).data = none ∨ (env.imread pr).data = none
  · left
    exact ⟨hdata, by simp [main, hlen, hpl, hpr, hdata, loadTrace]⟩
  right
  have hdl : (env.imread pl).data ≠ none := fun h => hdata (Or.inl h)
  have hdr : (env.imread pr).data ≠ none := fun h => hdata (Or.inr h)
  refine ⟨hdl, hdr, ?_⟩
  by_cases hdim : (env.imread pl).rows ≠ (env.imread pr).rows ∨
      (env.imread pl).cols ≠ (env.imread pr).cols
  · left
    exact ⟨hdim, by simp [main, hlen, hpl, hpr, hdata, hdim, loadTrace]⟩
  right
  have hrows : (env.imread pl).rows = (env.imread pr).rows := by
    by_contra h; exact hdim (Or.inl h)
  have hcols : (env.imread pl).cols = (env.imread pr).cols := by
    by_contra h; exact hdim (Or.inr h)
  refine ⟨hrows, hcols, _, _, rfl, rfl, ?_⟩
  cases hinit : env.Initialize (toS32 (toU32 (env.imread pl).cols))
      (toS32 (toU32 (env.imread pr).rows)) mainOption with
  | false =>
    left
    exact ⟨rfl, by simp [main, hlen, hpl, hpr, hdata, hdim, hinit, loadTrace]⟩
  | true =>
    right
    refine ⟨rfl, ?_⟩
    cases hn : newArrayLength (toS32 (toU32 (env.imread pl).cols))
        (toS32 (toU32 (env.imread pr).rows)) with
    | none =>
      left
      exact ⟨rfl, by simp [main, hlen, hpl, hpr, hdata, hdim, hinit, hn, loadTrace]⟩
    | some n =>
      right
      refine ⟨n, rfl, ?_⟩
      cases hm : (env.Match (env.imread pl).data (env.imread pr).data (zeroBuffer n)).1 with
      | false =>
        left
        refine ⟨rfl, ?_⟩
        simp only [zeroBuffer] at hm
        simp [main, hlen, hpl, hpr, hdata, hdim, hinit, hn, hm, loadTrace, zeroBuffer]
      | true =>
        right
        refine ⟨rfl, ?_⟩
        simp only [zeroBuffer] at hm
        simp [main, hlen, hpl, hpr, hdata, hdim, hinit, hn, hm, loadTrace, zeroBuffer,
          checkedState]


theorem outputEvents_not_call (env : Env) (img_left : Mat) (width height : Int) (s : CheckState)
    (path : String) (disp_mat : List Nat) (e : Event)
    (he : e ∈ outputEvents env img_left width height s path disp_mat) :
    e.isMatch = false ∧ e.isInitialize = false := by
  unfold outputEvents at he
  split at he <;> simp at he <;> (rcases he with h | h | h | h) <;>
    first
    | (subst h; exact ⟨rfl, rfl⟩)
    | (rcases h with h | h <;> subst h <;> exact ⟨rfl, rfl⟩)

theorem mainOutput_trace (env : Env) (argc : List String) (img_left : Mat) (width height : Int)
    (n : Nat) (trace : List Event) (s : CheckState) :
    ∃ post, (mainOutput env argc img_left width height n trace s).trace = trace ++ post ∧
      ∀ e ∈ post, e.isMatch = false ∧ e.isInitialize = false := by
  rcases mainOutput_cases env argc img_left width height n trace s with
    ⟨h, _⟩ | ⟨h, _⟩ | ⟨p, m, _, _, h⟩
  · exact ⟨[], by rw [h]; simp, by simp⟩
  · exact ⟨[], by rw [h]; simp, by simp⟩
  · exact ⟨_, by rw [h], fun e he => outputEvents_not_call _ _ _ _ _ _ _ e he⟩

/-- Call-site facts around C1: whenever `main` reaches the call of `Match`, (a)
`Initialize(width, height, option)` has returned true just before, (b) both image pointers
are non-null, (c) both images have `width` columns and `height` rows (width being read from
the left image, height from the right one), and (d) the buffer `disparity` has exactly
`width * height` elements whenever the product fits the `sint32` in which `main` computes
it. -/
theorem match_preconditions_at_call_site (env : Env) (argc : List String)
    (hmat : ∀ p, inS32 (env.imread p).rows ∧ inS32 (env.imread p).cols)
    (img_left img_right : Option (List Nat)) (disp_left : List float32) (result : Bool)
    (hcall : Event.callMatch img_left img_right disp_left result ∈ (main env argc).trace) :
    ∃ pl pr width height,
      argString argc 1 = some pl ∧ argString argc 2 = some pr ∧
      (∃ post, (main env argc).trace =
        loadTrace env pl pr ++
          [.callInitialize width height mainOption true,
           .callMatch img_left img_right disp_left result] ++ post) ∧
      env.Initialize width height mainOption = true ∧
      img_left = (env.imread pl).data ∧ img_right = (env.imread pr).data ∧
      img_left ≠ none ∧ img_right ≠ none ∧
      (env.imread pl).cols = width ∧ (env.imread pl).rows = height ∧
      (env.imread pr).cols = width ∧ (env.imread pr).rows = height ∧
      (inS32 (width * height) → (disp_left.length : Int) = width * height) ∧
      disp_left = zeroBuffer disp_left.length := by
  rcases main_cases env argc with ⟨_, hm⟩ | ⟨pl, pr, hpl, hpr, hc⟩
  · rw [hm] at hcall; simp at hcall
  rcases hc with ⟨_, hm⟩ | ⟨hdl, hdr, hc⟩
  · rw [hm] at hcall; simp [loadTrace] at hcall
  rcases hc with ⟨_, hm⟩ | ⟨hrows, hcols, w, h, hw, hh, hc⟩
  · rw [hm] at hcall; simp [loadTrace] at hcall
  have hw' : w = (env.imread pl).cols := by rw [hw, toS32_toU32 (hmat pl).2]
  have hh' : h = (env.imread pr).rows := by rw [hh, toS32_toU32 (hmat pr).1]
  rcases hc with ⟨_, hm⟩ | ⟨hinit, hc⟩
  · rw [hm] at hcall; simp [loadTrace] at hcall
  rcases hc with ⟨_, hm⟩ | ⟨n, hn, hc⟩
  · rw [hm] at hcall; simp [loadTrace] at hcall
  have hlenz : (zeroBuffer n).length = n := by simp [zeroBuffer]
  have hfin : ∀ post, (main env argc).trace = loadTrace env pl pr ++
        [.callInitialize w h mainOption true,
         .callMatch (env.imread pl).data (env.imread pr).data (zeroBuffer n) result] ++ post →
      img_left = (env.imread pl).data → img_right = (env.imread pr).data →
      disp_left = zeroBuffer n → _ := fun post hpost h1 h2 h3 =>
    (⟨pl, pr, w, h, hpl, hpr, ⟨post, by rw [hpost, h1, h2, h3]⟩, hinit, h1, h2,
      by rw [h1]; exact hdl, by rw [h2]; exact hdr, hw'.symm, by rw [hh', hrows],
      by rw [hw', hcols], hh'.symm,
      fun hfit => by rw [h3, hlenz, newArrayLength_some hn, toS32_of_inS32 hfit],
      by rw [h3, hlenz]⟩ : ∃ pl pr width height,
      argString argc 1 = some pl ∧ argString argc 2 = some pr ∧
      (∃ post, (main env argc).trace =
        loadTrace env pl pr ++
          [.callInitialize width height mainOption true,
           .callMatch img_left img_right disp_left result] ++ post) ∧
      env.Initialize width height mainOption = true ∧
      img_left = (env.imread pl).data ∧ img_right = (env.imread pr).data ∧
      img_left ≠ none ∧ img_right ≠ none ∧
      (env.imread pl).cols = width ∧ (env.imread pl).rows = height ∧
      (env.imread pr).cols = width ∧ (env.imread pr).rows = height ∧
      (inS32 (width * height) → (disp_left.length : Int) = width * height) ∧
      disp_left = zeroBuffer disp_left.length)
  rcases hc with ⟨_, hm⟩ | ⟨_, hm⟩
  · rw [hm] at hcall
    simp [loadTrace] at hcall
    obtain ⟨h1, h2, h3, h4⟩ := hcall
    subst h4
    exact hfin [.print .matchFailed] (by rw [hm]; simp) h1 h2 h3
  · obtain ⟨post, hpost, hnc⟩ := mainOutput_trace env argc (env.imread pl) w h n
      (loadTrace env pl pr ++
        [.callInitialize w h mainOption true,
         .callMatch (env.imread pl).data (env.imread pr).data (zeroBuffer n) true])
      (checkedState env pl pr w h n)
    rw [hm, hpost] at hcall
    rw [List.mem_append] at hcall
    rcases hcall with hcall | hcall
    · simp [loadTrace] at hcall
      obtain ⟨h1, h2, h3, h4⟩ := hcall
      subst h4
      exact hfin post (by rw [hm, hpost]) h1 h2 h3
    · have := (hnc _ hcall).1
      simp [Event.isMatch] at this


theorem argString_length {argc : List String} {i : Nat} {p : String}
    (h : argString argc i = some p) : i < argc.length := by
  unfold argString at h
  by_contra hc
  rw [List.getElem?_eq_none (by omega)] at h
  exact Option.noConfusion h

/-- C2: `main` returns -1, without calling `Initialize` or `Match`, when an image failed to
load or the two images differ in rows or columns; it returns -2 when `Initialize` returns
false (without calling `Match`) or when `Match` returns false; none of these runs writes the
disparity image or the point-cloud file. Conversely an output is written only when both
images loaded with identical dimensions and `Initialize` and `Match` both returned true. -/
theorem failures_return_before_output (env : Env) (argc : List String) :
    (∀ pl pr, argString argc 1 = some pl → argString argc 2 = some pr →
      ((env.imread pl).data = none ∨ (env.imread pr).data = none ∨
        (env.imread pl).rows ≠ (env.imread pr).rows ∨
        (env.imread pl).cols ≠ (env.imread pr).cols) →
      (main env argc).exit = .ret (-1) ∧
      ∀ e ∈ (main env argc).trace,
        e.isInitialize = false ∧ e.isMatch = false ∧ e.isOutput = false) ∧
    (∀ w h o, Event.callInitialize w h o false ∈ (main env argc).trace →
      (main env argc).exit = .ret (-2) ∧
      ∀ e ∈ (main env argc).trace, e.isMatch = false ∧ e.isOutput = false) ∧
    (∀ l r d, Event.callMatch l r d false ∈ (main env argc).trace →
      (main env argc).exit = .ret (-2) ∧
      ∀ e ∈ (main env argc).trace, e.isOutput = false) ∧
    (∀ e ∈ (main env argc).trace, e.isOutput = true →
      ∃ pl pr w h d, argString argc 1 = some pl ∧ argString argc 2 = some pr ∧
        (env.imread pl).data ≠ none ∧ (env.imread pr).data ≠ none ∧
        (env.imread pl).rows = (env.imread pr).rows ∧
        (env.imread pl).cols = (env.imread pr).cols ∧
        Event.callInitialize w h mainOption true ∈ (main env argc).trace ∧
        env.Initialize w h mainOption = true ∧
        Event.callMatch (env.imread pl).data (env.imread pr).data d true
          ∈ (main env argc).trace ∧
        (env.Match (env.imread pl).data (env.imread pr).data d).1 = true) := by
  refine ⟨?_, ?_, ?_, ?_⟩
  · intro pl pr hpl hpr hbad
    rcases main_cases env argc with ⟨hlen, _⟩ | ⟨pl', pr', hpl', hpr', hc⟩
    · have := argString_length hpr
      omega
    have e1 : pl' = pl := Option.some.inj (hpl'.symm.trans hpl)
    have e2 : pr' = pr := Option.some.inj (hpr'.symm.trans hpr)
    subst e1 e2
    rcases hc with ⟨_, hm⟩ | ⟨hdl, hdr, hc⟩
    · rw [hm]
      simp [loadTrace, Event.isInitialize, Event.isMatch, Event.isOutput]
    rcases hc with ⟨_, hm⟩ | ⟨hrows, hcols, _⟩
    · rw [hm]
      simp [loadTrace, Event.isInitialize, Event.isMatch, Event.isOutput]
    · rcases hbad with h | h | h | h <;> contradiction
  · intro w h o hmem
    rcases main_cases env argc with ⟨_, hm⟩ | ⟨pl, pr, hpl, hpr, hc⟩
    · rw [hm] at hmem; simp at hmem
    rcases hc with ⟨_, hm⟩ | ⟨hdl, hdr, hc⟩
    · rw [hm] at hmem; simp [loadTrace] at hmem
    rcases hc with ⟨_, hm⟩ | ⟨hrows, hcols, w', h', hw, hh, hc⟩
    · rw [hm] at hmem; simp [loadTrace] at hmem
    rcases hc with ⟨_, hm⟩ | ⟨hinit, hc⟩
    · rw [hm]
      simp [loadTrace, Event.isMatch, Event.isOutput]
    rcases hc with ⟨_, hm⟩ | ⟨n, hn, hc⟩
    · rw [hm] at hmem; simp [loadTrace] at hmem
    rcases hc with ⟨_, hm⟩ | ⟨_, hm⟩
    · rw [hm] at hmem; simp [loadTrace] at hmem
    · obtain ⟨post, hpost, hnc⟩ := mainOutput_trace env argc (env.imread pl) w' h' n
        (loadTrace env pl pr ++
          [.callInitialize w' h' mainOption true,
           .callMatch (env.imread pl).data (env.imread pr).data (zeroBuffer n) true])
        (checkedState env pl pr w' h' n)
      rw [hm, hpost, List.mem_append] at hmem
      rcases hmem with hmem | hmem
      · simp [loadTrace] at hmem
      · have := (hnc _ hmem).2
        simp [Event.isInitialize] at this
  · intro l r d hmem
    rcases main_cases env argc with ⟨_, hm⟩ | ⟨pl, pr, hpl, hpr, hc⟩
    · rw [hm] at hmem; simp at hmem
    rcases hc with ⟨_, hm⟩ | ⟨hdl, hdr, hc⟩
    · rw [hm] at hmem; simp [loadTrace] at hmem
    rcases hc with ⟨_, hm⟩ | ⟨hrows, hcols, w', h', hw, hh, hc⟩
    · rw [hm] at hmem; simp [loadTrace] at hmem
    rcases hc with ⟨_, hm⟩ | ⟨hinit, hc⟩
    · rw [hm] at hmem; simp [loadTrace] at hmem
    rcases hc with ⟨_, hm⟩ | ⟨n, hn, hc⟩
    · rw [hm] at hmem; simp [loadTrace] at hmem
    rcases hc with ⟨_, hm⟩ | ⟨_, hm⟩
    · rw [hm]
      simp [loadTrace, Event.isOutput]
    · obtain ⟨post, hpost, hnc⟩ := mainOutput_trace env argc (env.imread pl) w' h' n
        (loadTrace env pl pr ++
          [.callInitialize w' h' mainOption true,
           .callMatch (env.imread pl).data (env.imread pr).data (zeroBuffer n) true])
        (checkedState env pl pr w' h' n)
      rw [hm, hpost, List.mem_append] at hmem
      rcases hmem with hmem | hmem
      · simp [loadTrace] at hmem
      · have := (hnc _ hmem).1
        simp [Event.isMatch] at this
  · intro e hmem hout
    rcases main_cases env argc with ⟨_, hm⟩ | ⟨pl, pr, hpl, hpr, hc⟩
    · rw [hm] at hmem; simp at hmem
    rcases hc with ⟨_, hm⟩ | ⟨hdl, hdr, hc⟩
    · rw [hm] at hmem; simp [loadTrace] at hmem
      rcases hmem with h | h | h <;> subst h <;> simp [Event.isOutput] at hout
    rcases hc with ⟨_, hm⟩ | ⟨hrows, hcols, w', h', hw, hh, hc⟩
    · rw [hm] at hmem; simp [loadTrace] at hmem
      rcases hmem with h | h | h <;> subst h <;> simp [Event.isOutput] at hout
    rcases hc with ⟨_, hm⟩ | ⟨hinit, hc⟩
    · rw [hm] at hmem; simp [loadTrace] at hmem
      rcases hmem with h | h | h | h <;> subst h <;> simp [Event.isOutput] at hout
    rcases hc with ⟨_, hm⟩ | ⟨n, hn, hc⟩
    · rw [hm] at hmem; simp [loadTrace] at hmem
      rcases hmem with h | h | h <;> subst h <;> simp [Event.isOutput] at hout
    rcases hc with ⟨_, hm⟩ | ⟨hmatch, hm⟩
    · rw [hm] at hmem; simp [loadTrace] at hmem
      rcases hmem with h | h | h | h | h <;> subst h <;> simp [Event.isOutput] at hout
    · obtain ⟨post, hpost, _⟩ := mainOutput_trace env argc (env.imread pl) w' h' n
        (loadTrace env pl pr ++
          [.callInitialize w' h' mainOption true,
           .callMatch (env.imread pl).data (env.imread pr).data (zeroBuffer n) true])
        (checkedState env pl pr w' h' n)
      refine ⟨pl, pr, w', h', zeroBuffer n, hpl, hpr, hdl, hdr, hrows, hcols, ?_, hinit, ?_, hmatch⟩
      · rw [hm, hpost]; simp
      · rw [hm, hpost]; simp

/-! ## Runs that get through `Match` -/

theorem grayValue_isSome_of_inRange {inv d : float32} (h : InRange inv d) :
    (grayValue inv d).isSome = true := by
  cases hf : feq d inv with
  | true => rw [grayValue_sentinel inv d hf]; rfl
  | false =>
    rcases h with h | ⟨q, rfl, h0, h64⟩
    · rw [hf] at h; exact absurd h (by decide)
    · rw [grayValue_finite inv h0 h64 hf]; rfl

theorem inRange_zero (inv : float32) : InRange inv (float32.finite 0) :=
  Or.inr ⟨0, rfl, le_refl 0, by norm_num⟩

theorem inRange_getD {inv : float32} {l : List float32} (h : ∀ d ∈ l, InRange inv d) (k : Nat) :
    InRange inv (l.getD k default) := by
  by_cases hk : k < l.length
  · rw [List.getD_eq_getElem _ _ hk]
    exact h _ (List.getElem_mem _)
  · rw [List.getD_eq_default _ _ (by omega)]
    exact inRange_zero inv

theorem checkedState_disparity (env : Env) (pl pr : String) (w h : Int) (n : Nat) :
    (checkedState env pl pr w h n).disparity =
      (List.range n).map
        (env.Match (env.imread pl).data (env.imread pr).data (zeroBuffer n)).2 ∧
    (checkedState env pl pr w h n).disparity_check =
      List.replicate (w.toNat * h.toNat) (float32.finite 0) := by
  unfold checkedState consistencyBlock
  simp only [consistencyLoop_id]
  exact ⟨trivial, trivial⟩

theorem main_completes (env : Env) (argc : List String) (pl pr : String) (n : Nat)
    (hpl : argString argc 1 = some pl) (hpr : argString argc 2 = some pr)
    (hdl : (env.imread pl).data ≠ none) (hdr : (env.imread pr).data ≠ none)
    (hrows : (env.imread pl).rows = (env.imread pr).rows)
    (hcols : (env.imread pl).cols = (env.imread pr).cols)
    (hinit : env.Initialize (toS32 (toU32 (env.imread pl).cols))
      (toS32 (toU32 (env.imread pr).rows)) mainOption = true)
    (hn : newArrayLength (toS32 (toU32 (env.imread pl).cols))
      (toS32 (toU32 (env.imread pr).rows)) = some n)
    (hmatch : (env.Match (env.imread pl).data (env.imread pr).data (zeroBuffer n)).1 = true)
    (hrange : ∀ k, InRange env.Invalid_Float
      ((env.Match (env.imread pl).data (env.imread pr).data (zeroBuffer n)).2 k))
    (hle : (toS32 (toU32 (env.imread pl).cols)).toNat *
      (toS32 (toU32 (env.imread pr).rows)).toNat ≤ n) :
    (argString argc 3 = none → (main env argc).exit = .fault .nullString ∧
      ∀ e ∈ (main env argc).trace, e.isOutput = false) ∧
    (∀ p, argString argc 3 = some p → (main env argc).exit = .ret 0 ∧
      ∃ m, Event.imwrite p (toS32 (toU32 (env.imread pr).rows))
        (toS32 (toU32 (env.imread pl).cols)) m ∈ (main env argc).trace) := by
  have hmain : main env argc = mainOutput env argc (env.imread pl)
      (toS32 (toU32 (env.imread pl).cols)) (toS32 (toU32 (env.imread pr).rows)) n
      (loadTrace env pl pr ++
        [.callInitialize (toS32 (toU32 (env.imread pl).cols))
           (toS32 (toU32 (env.imread pr).rows)) mainOption true,
         .callMatch (env.imread pl).data (env.imread pr).data (zeroBuffer n) true])
      (checkedState env pl pr (toS32 (toU32 (env.imread pl).cols))
        (toS32 (toU32 (env.imread pr).rows)) n) := by
    have hlen : ¬ ((argc.length : Int) < 3) := by
      have := argString_length hpr
      omega
    have hdata : ¬ ((env.imread pl).data = none ∨ (env.imread pr).data = none) := by
      rintro (h | h)
      · exact hdl h
      · exact hdr h
    have hdim : ¬ ((env.imread pl).rows ≠ (env.imread pr).rows ∨
        (env.imread pl).cols ≠ (env.imread pr).cols) := by
      rintro (h | h)
      · exact h hrows
      · exact h hcols
    simp only [zeroBuffer] at hmatch
    simp [main, hlen, hpl, hpr, hdata, hdim, hinit, hn, hmatch, loadTrace,
      zeroBuffer, checkedState]
  obtain ⟨hd1, hd2⟩ := checkedState_disparity env pl pr (toS32 (toU32 (env.imread pl).cols))
    (toS32 (toU32 (env.imread pr).rows)) n
  have hg1 : ∀ fresh : List Nat, fresh.length = n →
      grayLoop env.Invalid_Float (toS32 (toU32 (env.imread pl).cols)).toNat
        (toS32 (toU32 (env.imread pr).rows)).toNat
        (checkedState env pl pr (toS32 (toU32 (env.imread pl).cols))
          (toS32 (toU32 (env.imread pr).rows)) n).disparity fresh ≠ none := by
    intro fresh hf
    obtain ⟨mat, hmat, _⟩ := grayLoop_total env.Invalid_Float
      (toS32 (toU32 (env.imread pl).cols)).toNat (toS32 (toU32 (env.imread pr).rows)).toNat
      (checkedState env pl pr (toS32 (toU32 (env.imread pl).cols))
          (toS32 (toU32 (env.imread pr).rows)) n).disparity fresh (by rw [hf]; exact hle)
      (fun k _ => grayValue_isSome_of_inRange (inRange_getD (by
        rw [hd1]
        intro d hd
        obtain ⟨k, _, rfl⟩ := List.mem_map.mp hd
        exact hrange k) k))
    rw [hmat]; exact Option.some_ne_none _
  have hg2 : ∀ fresh : List Nat, fresh.length = n →
      grayLoop env.Invalid_Float (toS32 (toU32 (env.imread pl).cols)).toNat
        (toS32 (toU32 (env.imread pr).rows)).toNat
        (checkedState env pl pr (toS32 (toU32 (env.imread pl).cols))
          (toS32 (toU32 (env.imread pr).rows)) n).disparity_check fresh ≠ none := by
    intro fresh hf
    obtain ⟨mat, hmat, _⟩ := grayLoop_total env.Invalid_Float
      (toS32 (toU32 (env.imread pl).cols)).toNat (toS32 (toU32 (env.imread pr).rows)).toNat
      (checkedState env pl pr (toS32 (toU32 (env.imread pl).cols))
          (toS32 (toU32 (env.imread pr).rows)) n).disparity_check fresh (by rw [hf]; exact hle)
      (fun k _ => grayValue_isSome_of_inRange (inRange_getD (by
        rw [hd2]
        intro d hd
        rw [List.eq_of_mem_replicate hd]
        exact inRange_zero _) k))
    rw [hmat]; exact Option.some_ne_none _
  have hfresh : ∀ k, (freshMat env k n).length = n := by
    intro k; simp [freshMat]
  rcases mainOutput_cases env argc (env.imread pl) (toS32 (toU32 (env.imread pl).cols))
      (toS32 (toU32 (env.imread pr).rows)) n
      (loadTrace env pl pr ++
        [.callInitialize (toS32 (toU32 (env.imread pl).cols))
           (toS32 (toU32 (env.imread pr).rows)) mainOption true,
         .callMatch (env.imread pl).data (env.imread pr).data (zeroBuffer n) true])
      (checkedState env pl pr (toS32 (toU32 (env.imread pl).cols))
        (toS32 (toU32 (env.imread pr).rows)) n) with
    ⟨_, hbad⟩ | ⟨hout, h3⟩ | ⟨p, m, h3, _, hout⟩
  · rcases hbad with hbad | hbad
    · exact absurd hbad (hg1 _ (hfresh 2))
    · exact absurd hbad (hg2 _ (hfresh 3))
  · refine ⟨fun _ => ?_, fun p hp => ?_⟩
    · rw [hmain, hout]
      simp [loadTrace, Event.isOutput]
    · rw [h3] at hp; exact Option.noConfusion hp
  · refine ⟨fun hnone => ?_, fun p' hp => ?_⟩
    · rw [h3] at hnone; exact Option.noConfusion hnone
    · have hp' : p = p' := Option.some.inj (h3.symm.trans hp)
      subst hp'
      rw [hmain, hout]
      refine ⟨rfl, m, ?_⟩
      simp [outputEvents]


/-! ## Disparity to gray and point-cloud export: the claims -/

theorem rowMajor_mem (width height i j : Nat) :
    (i, j) ∈ rowMajor width height ↔ i < height ∧ j < width := by
  simp [rowMajor, List.mem_flatMap, List.mem_map, List.mem_range]

theorem rowMajor_nodup (width height : Nat) : (rowMajor width height).Nodup := by
  apply List.Nodup.of_map (fun p : Nat × Nat => p.1 * width + p.2)
  rw [rowMajor_index]
  exact List.nodup_range _

/-- C9: a sentinel pixel is written as gray 0; a pixel of any other disparity `d` with
`0 ≤ d < 64` is written as `floor(2.5 * floor(d)) = floor(5 * floor(d) / 2)`, which lies in
`[0, 157]`, fits the 8-bit pixel, and does not decrease when `d` grows; and when every
disparity is the sentinel or in range, the loop stores that value at every pixel. -/
theorem gray_value_exact (Invalid_Float : float32) (d₁ d₂ : ℚ)
    (h0 : 0 ≤ d₁) (h12 : d₁ ≤ d₂) (h64 : d₂ < 64)
    (hv₁ : feq (.finite d₁) Invalid_Float = false)
    (hv₂ : feq (.finite d₂) Invalid_Float = false) :
    (∀ disp, feq disp Invalid_Float = true → grayValue Invalid_Float disp = some 0) ∧
    grayValue Invalid_Float (.finite d₁) = some (specGray d₁).toNat ∧
    grayValue Invalid_Float (.finite d₂) = some (specGray d₂).toNat ∧
    specGray d₂ = 5 * ⌊d₂⌋ / 2 ∧
    0 ≤ specGray d₁ ∧ specGray d₁ ≤ specGray d₂ ∧ specGray d₂ ≤ 157 ∧ (157 : Int) < 2 ^ 8 ∧
    (∀ (width height : Nat) (disparity : List float32) (data : List Nat),
      data.length = width * height → (∀ d ∈ disparity, InRange Invalid_Float d) →
      ∃ mat, grayLoop Invalid_Float width height disparity data = some mat ∧
        mat.length = width * height ∧
        ∀ k, k < width * height →
          grayValue Invalid_Float (disparity.getD k default) = some (mat.getD k 0)) := by
  have h0₂ : 0 ≤ d₂ := le_trans h0 h12
  have h64₁ : d₁ < 64 := lt_of_le_of_lt h12 h64
  refine ⟨fun disp hd => grayValue_sentinel _ _ hd, grayValue_finite _ h0 h64₁ hv₁,
    grayValue_finite _ h0₂ h64 hv₂, specGray_eq_div d₂, (specGray_bounds h0 h64₁).1,
    specGray_mono h12, (specGray_bounds h0₂ h64).2, by norm_num, ?_⟩
  intro width height disparity data hlen hall
  obtain ⟨mat, hmat, hl, hk⟩ := grayLoop_total Invalid_Float width height disparity data
    (by omega) (fun k _ => grayValue_isSome_of_inRange (inRange_getD hall k))
  exact ⟨mat, hmat, by rw [hl, hlen], hk⟩

/-- Witness of C9: with the sentinel plus infinity, disparity 3.5 is written as gray 7
and disparity 1.5 as gray 2. -/
theorem gray_value_exact_witness :
    grayValue (float32.inf false) (float32.finite (7 / 2)) = some 7 ∧
    grayValue (float32.inf false) (float32.finite (3 / 2)) = some 2 := by
  have h := gray_value_exact (float32.inf false) (3 / 2) (7 / 2) (by norm_num) (by norm_num)
    (by norm_num) rfl rfl
  have f1 : ⌊(3 / 2 : ℚ)⌋ = 1 := Int.floor_eq_iff.mpr ⟨by norm_num, by norm_num⟩
  have f2 : ⌊(7 / 2 : ℚ)⌋ = 3 := Int.floor_eq_iff.mpr ⟨by norm_num, by norm_num⟩
  have g1 : specGray (3 / 2) = 2 := by rw [specGray_eq_div, f1]; rfl
  have g2 : specGray (7 / 2) = 7 := by rw [specGray_eq_div, f2]; rfl
  refine ⟨?_, ?_⟩
  · rw [h.2.2.1, g2]; rfl
  · rw [h.2.1, g1]; rfl

/-- C10: the lines written to the point-cloud file are, in row-major order (row outer, column
inner), one line for each pixel whose disparity is not the sentinel and none for the others;
their number is the number of such pixels; the line of pixel `(i, j)` carries `i`, `j` (as
floats), the pixel's disparity, and three times the left image's gray value at `i*width+j`. -/
theorem cloud_export_emits_valid_pixels (fe : FloatEnv) (Invalid_Float : float32)
    (width height : Nat) (disparity : List float32) (img_left : List Nat)
    (hlen : disparity.length = width * height) :
    cloudLoop fe Invalid_Float width height disparity img_left =
      (rowMajor width height).filterMap
        (cloudLineOf fe Invalid_Float width disparity img_left) ∧
    (rowMajor width height).Nodup ∧
    (∀ i j, (i, j) ∈ rowMajor width height ↔ i < height ∧ j < width) ∧
    (rowMajor width height).map (fun p => disparity.getD (p.1 * width + p.2) default)
      = disparity ∧
    (cloudLoop fe Invalid_Float width height disparity img_left).length =
      (disparity.filter (fun d => !(feq d Invalid_Float))).length ∧
    (∀ i j,
      (feq (disparity.getD (i * width + j) default) Invalid_Float = true →
        cloudLineOf fe Invalid_Float width disparity img_left (i, j) = none) ∧
      (feq (disparity.getD (i * width + j) default) Invalid_Float = false →
        cloudLineOf fe Invalid_Float width disparity img_left (i, j) =
          some { u := fe.rnd (i : ℚ), v := fe.rnd (j : ℚ),
                 disp := disparity.getD (i * width + j) default,
                 r := img_left.getD (i * width + j) 0,
                 g := img_left.getD (i * width + j) 0,
                 b := img_left.getD (i * width + j) 0 })) := by
  refine ⟨cloudLoop_eq _ _ _ _ _ _, rowMajor_nodup _ _, rowMajor_mem _ _,
    rowMajor_disparity _ _ _ hlen, cloudLoop_length _ _ _ _ _ _ hlen, fun i j => ⟨?_, ?_⟩⟩
  · intro h
    simp only [cloudLineOf, h, if_true]
  · intro h
    simp only [cloudLineOf, h, Bool.false_eq_true, if_false]

/-- Witness of C10: a 2x1 map whose second pixel is the sentinel gives the one line of the
first pixel. -/
theorem cloud_export_emits_valid_pixels_witness :
    cloudLoop demoFe (float32.inf false) 2 1 [float32.finite 3, float32.inf false] [7, 9] =
      [{ u := float32.finite 0, v := float32.finite 0, disp := float32.finite 3,
         r := 7, g := 7, b := 7 }] := by
  have h := (cloud_export_emits_valid_pixels demoFe (float32.inf false) 2 1
    [float32.finite 3, float32.inf false] [7, 9] rfl).1
  rw [h]
  simp [rowMajor, cloudLineOf, feq, demoFe, List.range_succ]


/-! ## Example runs -/

theorem demo_args3 :
    argString ["sgm", "left.png", "right.png"] 1 = some "left.png" ∧
    argString ["sgm", "left.png", "right.png"] 2 = some "right.png" ∧
    argString ["sgm", "left.png", "right.png"] 3 = none := by
  simp [argString]

theorem demo_args4 :
    argString ["sgm", "left.png", "right.png", "out.png"] 1 = some "left.png" ∧
    argString ["sgm", "left.png", "right.png", "out.png"] 2 = some "right.png" ∧
    argString ["sgm", "left.png", "right.png", "out.png"] 3 = some "out.png" := by
  simp [argString]

theorem demo_dims : toS32 (toU32 1) = 1 := by decide

theorem demo_length : newArrayLength 1 1 = some 1 := by decide

theorem main_match_returns_false (env : Env) (argc : List String) (pl pr : String) (n : Nat)
    (hpl : argString argc 1 = some pl) (hpr : argString argc 2 = some pr)
    (hdl : (env.imread pl).data ≠ none) (hdr : (env.imread pr).data ≠ none)
    (hrows : (env.imread pl).rows = (env.imread pr).rows)
    (hcols : (env.imread pl).cols = (env.imread pr).cols)
    (hinit : env.Initialize (toS32 (toU32 (env.imread pl).cols))
      (toS32 (toU32 (env.imread pr).rows)) mainOption = true)
    (hn : newArrayLength (toS32 (toU32 (env.imread pl).cols))
      (toS32 (toU32 (env.imread pr).rows)) = some n)
    (hmatch : (env.Match (env.imread pl).data (env.imread pr).data (zeroBuffer n)).1 = false) :
    main env argc = ⟨.ret (-2), loadTrace env pl pr ++
      [.callInitialize (toS32 (toU32 (env.imread pl).cols))
         (toS32 (toU32 (env.imread pr).rows)) mainOption true,
       .callMatch (env.imread pl).data (env.imread pr).data (zeroBuffer n) false,
       .print .matchFailed]⟩ := by
  have hlen : ¬ ((argc.length : Int) < 3) := by
    have := argString_length hpr
    omega
  have hdata : ¬ ((env.imread pl).data = none ∨ (env.imread pr).data = none) := by
    rintro (h | h)
    · exact hdl h
    · exact hdr h
  have hdim : ¬ ((env.imread pl).rows ≠ (env.imread pr).rows ∨
      (env.imread pl).cols ≠ (env.imread pr).cols) := by
    rintro (h | h)
    · exact h hrows
    · exact h hcols
  simp only [zeroBuffer] at hmatch
  simp [main, hlen, hpl, hpr, hdata, hdim, hinit, hn, hmatch, loadTrace, zeroBuffer]

theorem huge_dims : toS32 (toU32 65536) = 65536 := by decide

theorem huge_length : newArrayLength 65536 65536 = some 0 := by decide

theorem demo_run_huge :
    main (demoEnv hugeMat true false) ["sgm", "left.png", "right.png", "out.png"] =
      ⟨.ret (-2), [.imread "left.png" hugeMat, .imread "right.png" hugeMat,
        .callInitialize 65536 65536 mainOption true,
        .callMatch hugeMat.data hugeMat.data [] false, .print .matchFailed]⟩ := by
  have h := main_match_returns_false (demoEnv hugeMat true false)
    ["sgm", "left.png", "right.png", "out.png"] "left.png" "right.png" 0
    demo_args4.1 demo_args4.2.1 (fun h => Option.noConfusion h)
    (fun h => Option.noConfusion h) rfl rfl rfl
    (by
      show newArrayLength (toS32 (toU32 65536)) (toS32 (toU32 65536)) = some 0
      rw [huge_dims]; exact huge_length)
    rfl
  rw [h]
  show (⟨.ret (-2), [.imread "left.png" hugeMat, .imread "right.png" hugeMat,
        .callInitialize (toS32 (toU32 65536)) (toS32 (toU32 65536)) mainOption true,
        .callMatch hugeMat.data hugeMat.data [] false, .print .matchFailed]⟩ : Run) = _
  rw [huge_dims]

theorem demo_mat_range : inS32 demoMat.rows ∧ inS32 demoMat.cols := by decide

theorem demo_run_load_failed :
    main (demoEnv emptyMat true true) ["sgm", "left.png", "right.png", "out.png"] =
      ⟨.ret (-1), [.imread "left.png" emptyMat, .imread "right.png" emptyMat,
        .print .loadFailed]⟩ := by
  simp [main, demoEnv, emptyMat, argString]

theorem demo_run_init_failed :
    main (demoEnv demoMat false true) ["sgm", "left.png", "right.png", "out.png"] =
      ⟨.ret (-2), [.imread "left.png" demoMat, .imread "right.png" demoMat,
        .callInitialize 1 1 mainOption false, .print .initFailed]⟩ := by
  simp [main, demoEnv, demoMat, argString, demo_dims]

theorem demo_run_match_failed :
    main (demoEnv demoMat true false) ["sgm", "left.png", "right.png", "out.png"] =
      ⟨.ret (-2), [.imread "left.png" demoMat, .imread "right.png" demoMat,
        .callInitialize 1 1 mainOption true,
        .callMatch (some [5]) (some [5]) [float32.finite 0] false, .print .matchFailed]⟩ := by
  simp [main, demoEnv, demoMat, argString, demo_dims, demo_length]

/-- A run with four arguments on the same inputs returns 0 and writes the disparity image. -/
theorem demo_run_completes :
    (main (demoEnv demoMat true true) ["sgm", "left.png", "right.png", "out.png"]).exit
      = .ret 0 ∧
    ∃ m, Event.imwrite "out.png" 1 1 m ∈
      (main (demoEnv demoMat true true) ["sgm", "left.png", "right.png", "out.png"]).trace := by
  have h := (main_completes (demoEnv demoMat true true)
    ["sgm", "left.png", "right.png", "out.png"]
    "left.png" "right.png" 1 demo_args4.1 demo_args4.2.1 (by decide) (by decide) rfl rfl rfl
    (by decide) rfl (fun _ => Or.inr ⟨1, rfl, by norm_num, by norm_num⟩) (by decide)).2
    "out.png"
    demo_args4.2.2
  exact h

/-- C1 fails on the code: on two loaded 65536x65536 images (each dimension fits `sint32`,
each image holds `2^32` pixels) `main` gets through `Initialize(65536, 65536, option)` and
calls `Match` with a buffer of 0 elements, not `65536 * 65536`: the `sint32` product
`width * height` of line 74 wraps to 0, while the header asks for a buffer of the image's
size. -/
theorem match_called_with_empty_buffer :
    inS32 hugeMat.rows ∧ inS32 hugeMat.cols ∧
    (∃ pixels, hugeMat.data = some pixels ∧ pixels.length = 65536 * 65536) ∧
    Event.callInitialize hugeMat.cols hugeMat.rows mainOption true ∈
      (main (demoEnv hugeMat true false) ["sgm", "left.png", "right.png", "out.png"]).trace ∧
    Event.callMatch hugeMat.data hugeMat.data [] false ∈
      (main (demoEnv hugeMat true false) ["sgm", "left.png", "right.png", "out.png"]).trace ∧
    hugeMat.cols * hugeMat.rows = 4294967296 ∧
    ((([] : List float32).length : Int) ≠ hugeMat.cols * hugeMat.rows) := by
  refine ⟨by decide, by decide, ⟨_, rfl, List.length_replicate _ _⟩, ?_, ?_, by decide,
    by decide⟩
  · rw [demo_run_huge]
    exact List.mem_cons_of_mem _ (List.mem_cons_of_mem _ (List.mem_cons_self _ _))
  · rw [demo_run_huge]
    exact List.mem_cons_of_mem _ (List.mem_cons_of_mem _
      (List.mem_cons_of_mem _ (List.mem_cons_self _ _)))

/-- Example of the call-site facts: a run on two 1x1 images whose `Match` is reached (and
fails): the call follows a successful `Initialize(1, 1, option)` and gets a buffer of
1 = 1 * 1 element. -/
theorem match_preconditions_at_call_site_witness :
    Event.callMatch (some [5]) (some [5]) [float32.finite 0] false ∈
      (main (demoEnv demoMat true false) ["sgm", "left.png", "right.png", "out.png"]).trace ∧
    ∃ width height : Int,
      (demoEnv demoMat true false).Initialize width height mainOption = true ∧
      demoMat.cols = width ∧ demoMat.rows = height ∧
      (([float32.finite 0] : List float32).length : Int) = width * height := by
  have hmem : Event.callMatch (some [5]) (some [5]) [float32.finite 0] false ∈
      (main (demoEnv demoMat true false) ["sgm", "left.png", "right.png", "out.png"]).trace := by
    rw [demo_run_match_failed]; simp
  obtain ⟨pl, pr, w, h, _, _, _, hi, _, _, _, _, hc, hr, _, _, hl, _⟩ :=
    match_preconditions_at_call_site (demoEnv demoMat true false)
      ["sgm", "left.png", "right.png", "out.png"] (fun _ => demo_mat_range) _ _ _ _ hmem
  have hc1 : w = 1 := hc.symm
  have hr1 : h = 1 := hr.symm
  exact ⟨hmem, w, h, hi, hc, hr, hl (by rw [hc1, hr1]; decide)⟩

/-- Witness of C2: a run whose images fail to load returns -1, runs whose `Initialize` or
`Match` fails return -2, none of them writes an output, and the run that writes one has
both successful calls in its trace. -/
theorem failures_return_before_output_witness :
    ((main (demoEnv emptyMat true true) ["sgm", "left.png", "right.png", "out.png"]).exit
        = .ret (-1)) ∧
    ((main (demoEnv demoMat false true) ["sgm", "left.png", "right.png", "out.png"]).exit
        = .ret (-2) ∧
      ∀ e ∈ (main (demoEnv demoMat false true)
          ["sgm", "left.png", "right.png", "out.png"]).trace,
        e.isMatch = false ∧ e.isOutput = false) ∧
    ((main (demoEnv demoMat true false) ["sgm", "left.png", "right.png", "out.png"]).exit
        = .ret (-2) ∧
      ∀ e ∈ (main (demoEnv demoMat true false)
          ["sgm", "left.png", "right.png", "out.png"]).trace, e.isOutput = false) ∧
    (∃ w h, Event.callInitialize w h mainOption true ∈
        (main (demoEnv demoMat true true) ["sgm", "left.png", "right.png", "out.png"]).trace ∧
      ∃ d, Event.callMatch demoMat.data demoMat.data d true ∈
        (main (demoEnv demoMat true true)
          ["sgm", "left.png", "right.png", "out.png"]).trace) :=
  ⟨((failures_return_before_output (demoEnv emptyMat true true)
        ["sgm", "left.png", "right.png", "out.png"]).1 "left.png" "right.png"
        demo_args4.1 demo_args4.2.1 (Or.inl rfl)).1,
   (failures_return_before_output (demoEnv demoMat false true)
        ["sgm", "left.png", "right.png", "out.png"]).2.1 1 1 mainOption
        (by rw [demo_run_init_failed]; simp),
   (failures_return_before_output (demoEnv demoMat true false)
        ["sgm", "left.png", "right.png", "out.png"]).2.2.1 (some [5]) (some [5])
        [float32.finite 0] (by rw [demo_run_match_failed]; simp),
   by
    obtain ⟨m, hm⟩ := demo_run_completes.2
    obtain ⟨pl, pr, w, h, d, _, _, _, _, _, _, hi, _, hc, _⟩ :=
      (failures_return_before_output (demoEnv demoMat true true)
        ["sgm", "left.png", "right.png", "out.png"]).2.2.2 _ hm rfl
    exact ⟨w, h, hi, d, hc⟩⟩

/-- C3 fails on the code: with three arguments (program name and the two image paths) the
guard `argv < 3` lets the run pass, although there are fewer than 4 arguments; the run reads
both images, gets through `Initialize` and `Match`, and then builds the output path from
`argc[3]`, the null pointer that ends the argument vector. -/
theorem guard_admits_three_arguments :
    ¬ (((["sgm", "left.png", "right.png"] : List String).length : Int) < 3) ∧
    ¬ (4 ≤ (["sgm", "left.png", "right.png"] : List String).length) ∧
    argString ["sgm", "left.png", "right.png"] 3 = none ∧
    (main (demoEnv demoMat true true) ["sgm", "left.png", "right.png"]).exit
      = .fault .nullString ∧
    ∀ e ∈ (main (demoEnv demoMat true true) ["sgm", "left.png", "right.png"]).trace,
      e.isOutput = false := by
  have h := (main_completes (demoEnv demoMat true true) ["sgm", "left.png", "right.png"]
    "left.png" "right.png" 1 demo_args3.1 demo_args3.2.1 (by decide) (by decide) rfl rfl rfl
    (by decide) rfl (fun _ => Or.inr ⟨1, rfl, by norm_num, by norm_num⟩) (by decide)).1
    demo_args3.2.2
  exact ⟨by decide, by decide, demo_args3.2.2, h.1, h.2⟩

end SGM
